import Mathlib

/-!
Shallow embedding of the elasdx repository (an ElasticSearch index template
updating, reindexing and cleanup tool) for checking its natural-language
specification.

The Go source consists of the `elasticsearch` package
(`src/elasticsearch/elasdx.go`) and the `cli` package.  Every function below
is translated from the Go source; the cluster is modelled as an explicit
state record (indices, alias associations, stored templates, per-index
settings), and each administrative HTTP call is modelled as a pure state
transition that also emits an `Action` describing the call.  HTTP transport
failures are not state-derivable; where a claim quantifies over them (the
initial alias lookup of `ReindexOne`) the outcome of that call is passed as
an explicit argument, and the honest (state-derived) run is recovered by
instantiating it with the state-derived lookup.
-/

namespace Elasdx

/-- Go `strings.HasPrefix(s, pre)` (working on the character list). -/
def strStartsWith (s pre : String) : Bool :=
  pre.data.isPrefixOf s.data

/-- Go `strings.HasSuffix(s, suf)` (working on the character list). -/
def strEndsWith (s suf : String) : Bool :=
  suf.data.isSuffixOf s.data

/-- Go `strings.TrimSuffix(s, ".json")`: drop a trailing ".json" when present. -/
def trimDotJson (s : String) : String :=
  if strEndsWith s ".json" then ⟨s.data.take (s.data.length - 5)⟩ else s

/-- Go `filepath.Split`: the file-name component after the last separator. -/
def baseName (path : String) : String :=
  ⟨path.data.foldl (fun acc c => if c = '/' then [] else acc ++ [c]) []⟩

/-- Go `strings.ReplaceAll(s, ":", "-")` for the one-character pattern ":". -/
def replaceColons (s : String) : String :=
  ⟨s.data.map (fun c => if c = ':' then '-' else c)⟩

/-- The positions at which a string holds a colon (the only characters
`replaceColons` rewrites). Two outputs of the fixed-width
`2006-01-02-15:04:05` time format always have equal colon shape. -/
def colonShape (s : String) : List Bool :=
  s.data.map (fun c => c == ':')

/-- An index template as stored by the cluster: the two `"index"` settings
`ReindexOne` probes (`refresh_interval`, `number_of_replicas`), each
possibly absent. -/
structure Template where
  refreshInterval : Option String
  numberOfReplicas : Option String
deriving DecidableEq, Repr

/-- Per-index settings; `none` is the cluster default (what a `null` in an
`IndexPutSettings` body resets to). -/
structure IndexSettings where
  refreshInterval : Option String
  numberOfReplicas : Option String
deriving DecidableEq, Repr

/-- The administrative state of the cluster, as seen through the admin API
calls the tool issues. `aliasPairs` is the set of (index, alias)
associations. -/
structure ClusterState where
  indices : List String
  aliasPairs : List (String × String)
  templates : List (String × Template)
  settings : List (String × IndexSettings)
deriving DecidableEq, Repr

/-- One administrative API call, as emitted by the tool. -/
inductive Action where
  | putTemplate (name : String)
  | createIndex (name : String)
  | putSettings (index : String) (refreshInterval numberOfReplicas : Option String)
  | reindexDocs (src dst versionType : String) (remote : Bool)
  | aliasRemove (index aliasName : String)
  | aliasAdd (index aliasName : String)
  | deleteIndex (name : String)
  | setAllocation (index host : String)
deriving DecidableEq, Repr

/-- Cluster-call failures: a 404 (`elastic.IsNotFound`) or a transport-level
failure (any other status/connection error, abstracted by a code). -/
inductive EsErr where
  | notFound
  | transport (code : Nat)
deriving DecidableEq, Repr

/-- A Go error as returned by the tool: the underlying cluster failure plus
the `errors.Wrapf` context message. -/
structure RunErr where
  err : EsErr
  ctx : String
deriving DecidableEq, Repr

/-- The indices currently associated with an alias (the state reading behind
`AliasesResult.IndicesByAlias`). -/
def aliasedTo (st : ClusterState) (aliasName : String) : List String :=
  (st.aliasPairs.filter (fun p => p.2 == aliasName)).map (·.1)

/-- `client.Aliases().Alias(a)`: the indices currently associated with the
alias; 404 when no index has it. -/
def aliasLookup (st : ClusterState) (aliasName : String) : Except EsErr (List String) :=
  if (aliasedTo st aliasName).isEmpty then .error .notFound
  else .ok (aliasedTo st aliasName)

/-- Overwrite (or insert) an index's settings record. -/
def setSettings (st : ClusterState) (idx : String) (ri nr : Option String) : ClusterState :=
  { st with settings := (idx, ⟨ri, nr⟩) :: st.settings.filter (fun p => p.1 != idx) }

/-- `client.IndexPutSettings(idx)`: 404 when the target index is absent. -/
def putSettingsCall (st : ClusterState) (idx : String) (ri nr : Option String) :
    Except EsErr ClusterState :=
  if st.indices.contains idx then .ok (setSettings st idx ri nr) else .error .notFound

/-- `client.Alias().Remove(idx, a)`: drop one (index, alias) association. -/
def removeAliasPair (st : ClusterState) (idx aliasName : String) : ClusterState :=
  { st with aliasPairs := st.aliasPairs.filter (fun p => !(p.1 == idx && p.2 == aliasName)) }

/-- `client.Alias().Add(idx, a)`. -/
def addAliasPair (st : ClusterState) (idx aliasName : String) : ClusterState :=
  { st with aliasPairs := st.aliasPairs ++ [(idx, aliasName)] }

/-- `client.DeleteIndex(name)`: the index disappears together with its alias
associations and settings. -/
def deleteIndexState (st : ClusterState) (name : String) : ClusterState :=
  { st with
    indices := st.indices.erase name
    aliasPairs := st.aliasPairs.filter (fun p => p.1 != name)
    settings := st.settings.filter (fun p => p.1 != name) }

/-- Go `sort.Strings`: ascending lexicographic sort (Go compares strings
byte-wise; UTF-8 byte order agrees with the lexicographic order on the
character sequences, modelled here as the lexicographic order on
`String.data`). -/
def sortStrings (l : List String) : List String :=
  List.insertionSort (fun a b => a.data ≤ b.data) l

/-! ## CleanupOne (src/elasticsearch/elasdx.go lines 290-320)

The Go loop is `for i := 0; i < len(matches)-maxHistory; i++` over the sorted
match list, deleting `matches[i]`.  `maxHistory` is a Go `int`, so the bound
`len(matches)-maxHistory` is integer arithmetic; the loop runs
`max 0 (len(matches) - maxHistory)` iterations, and `matches[i]` panics
(slice index out of range) as soon as `i` reaches `len(matches)` with
iterations still remaining.  The loop is embedded with the iteration count
precomputed as that `Int.toNat`; `none` is the panic. -/

def cleanupLoop (st : ClusterState) (sortedMatches : List String) (i : Nat) :
    Nat → Option (ClusterState × List Action)
  | 0 => some (st, [])
  | fuel + 1 =>
    match sortedMatches.get? i with
    | none => none
    | some idx =>
      (cleanupLoop (deleteIndexState st idx) sortedMatches (i + 1) fuel).map
        (fun r => (r.1, Action.deleteIndex idx :: r.2))

/-- `CleanupOne`: list index names, keep those with the given name as a
leading substring (Go `strings.HasPrefix`), sort, delete the first
`len(matches) - maxHistory`. `none` models the out-of-range panic. -/
def CleanupOneM (st : ClusterState) (tplName : String) (maxHistory : Int) :
    Option (ClusterState × List Action) :=
  let sortedMatches := sortStrings (st.indices.filter (fun i => strStartsWith i tplName))
  cleanupLoop st sortedMatches 0 ((sortedMatches.length : Int) - maxHistory).toNat

/-! ## UpdateAlias (src/elasticsearch/elasdx.go lines 218-260)

The Go function first runs `client.IndexExists(newIndex)`.  On
`err != nil || !exists` it prints a failure message and returns
`errors.Wrapf(err, ...)`; `pkg/errors.Wrapf` returns `nil` when `err` is
`nil`, so when the existence check itself succeeds but reports the index
absent the function returns a nil error having mutated nothing.  That branch
is therefore embedded as a successful no-op.  It then looks the alias up,
removes every associated index from the alias (404 on the lookup downgrades
to an informational note), and adds the new index to the alias. -/

def UpdateAliasM (st : ClusterState) (aliasName newIndex : String) :
    Except RunErr (ClusterState × List Action) :=
  if !(st.indices.contains newIndex) then
    -- exists=false, err=nil: Go prints "failed checking for index %s" but
    -- errors.Wrapf(nil, ...) = nil, so the caller sees no error
    .ok (st, [])
  else
    match aliasLookup st aliasName with
    | .ok idxs =>
      let (st1, acts) := idxs.foldl
        (fun (acc : ClusterState × List Action) i =>
          (removeAliasPair acc.1 i aliasName, acc.2 ++ [Action.aliasRemove i aliasName]))
        (st, [])
      .ok (addAliasPair st1 newIndex aliasName, acts ++ [Action.aliasAdd newIndex aliasName])
    | .error e =>
      if e = .notFound then
        -- "%s not found, must be a new index": informational, not an error
        .ok (addAliasPair st newIndex aliasName, [Action.aliasAdd newIndex aliasName])
      else
        .error ⟨e, s!"failed trying to lookup alias {aliasName}"⟩

/-! ## ReindexOne (src/elasticsearch/elasdx.go lines 128-216)

The outcome of the initial `client.Aliases().Alias(alias)` HTTP call is the
`lookup` argument: `.ok` carries the alias's index list, `.error .notFound`
is the 404 `elastic.IsNotFound` recognises, and `.error (.transport c)` is
any other failure.  `ReindexOneRun` below instantiates it with the
state-derived result. -/

/-- Lines 176-210: retrieve the index template named after the alias and put
the destination index's `refresh_interval` / `number_of_replicas` back to the
template's values (a missing key becomes a JSON `null`, i.e. the cluster
default). -/
def restorePhase (st : ClusterState) (aliasName newIndex : String) :
    Except RunErr (ClusterState × List Action) :=
  match st.templates.lookup aliasName with
  | none => .error ⟨.notFound, s!"failed to retrieve index template {aliasName}"⟩
  | some t =>
    match putSettingsCall st newIndex t.refreshInterval t.numberOfReplicas with
    | .error e =>
      .error ⟨e, s!"failed setting index bulkimport/replica settings for index {newIndex}"⟩
    | .ok st1 =>
      .ok (st1, [Action.putSettings newIndex t.refreshInterval t.numberOfReplicas])

/-- Lines 176-216 as a unit: the settings restore (unless both
`noUpdateAlias` and `bulkIndexing` are set) followed by the alias swap
(unless `noUpdateAlias` is set). -/
def restoreAndSwap (st : ClusterState) (aliasName newIndex : String)
    (noUpdateAlias bulkIndexing : Bool) : Except RunErr (ClusterState × List Action) :=
  match (if !noUpdateAlias || !bulkIndexing then restorePhase st aliasName newIndex
         else .ok (st, [])) with
  | .error e => .error e
  | .ok (st1, acts1) =>
    if !noUpdateAlias then
      match UpdateAliasM st1 aliasName newIndex with
      | .error e => .error e
      | .ok (st2, acts2) => .ok (st2, acts1 ++ acts2)
    else .ok (st1, acts1)

def ReindexOneM (st : ClusterState) (lookup : Except EsErr (List String))
    (aliasName newIndex remoteSrc : String)
    (versionExternal noUpdateAlias bulkIndexing : Bool) :
    Except RunErr (ClusterState × List Action) :=
  -- lines 130-142: reindexingRequired defaults to true; a 404 on the lookup
  -- clears it, any other lookup failure is returned
  match ((match lookup with
          | .ok r => .ok (true, r)
          | .error e =>
            if e = .notFound then .ok (false, ([] : List String))
            else .error (⟨e, s!"failed trying to lookup alias {aliasName}"⟩ : RunErr)) :
         Except RunErr (Bool × List String)) with
  | .error e => .error e
  | .ok (reindexingRequired, aliasResult) =>
    -- lines 146-173: the document-copy step
    let copyActs : List Action :=
      if reindexingRequired || remoteSrc != "" then
        let indicesFromAlias := if remoteSrc == "" then aliasResult else [aliasName]
        let targetVersionType := if versionExternal then "external" else "internal"
        indicesFromAlias.map
          (fun i => Action.reindexDocs i newIndex targetVersionType (remoteSrc != ""))
      else []
    -- lines 176-210: settings restore
    match (if !noUpdateAlias || !bulkIndexing then restorePhase st aliasName newIndex
           else .ok (st, [])) with
    | .error e => .error e
    | .ok (st1, restoreActs) =>
      -- lines 212-215: alias swap
      if !noUpdateAlias then
        match UpdateAliasM st1 aliasName newIndex with
        | .error e => .error e
        | .ok (st2, aliasActs) => .ok (st2, copyActs ++ restoreActs ++ aliasActs)
      else .ok (st1, copyActs ++ restoreActs)

/-- `ReindexOne` as it actually runs: the initial alias lookup reflects the
cluster state. -/
def ReindexOneRun (st : ClusterState) (aliasName newIndex remoteSrc : String)
    (versionExternal noUpdateAlias bulkIndexing : Bool) :
    Except RunErr (ClusterState × List Action) :=
  ReindexOneM st (aliasLookup st aliasName) aliasName newIndex remoteSrc
    versionExternal noUpdateAlias bulkIndexing

/-- The document-copy calls of `ReindexOne` (lines 146-173), as a function of
the outcome of the lookup phase (`req` is `reindexingRequired`, `res` the
alias's index list). -/
def reindexCopyActs (req : Bool) (res : List String)
    (aliasName newIndex remoteSrc : String) (versionExternal : Bool) : List Action :=
  if req || remoteSrc != "" then
    (if remoteSrc == "" then res else [aliasName]).map
      (fun i => Action.reindexDocs i newIndex
        (if versionExternal then "external" else "internal") (remoteSrc != ""))
  else []

/-! ## ReindexAll (src/elasticsearch/elasdx.go lines 280-288)

Iterates over the alias-to-new-index map (Go map iteration order is
unspecified, so the entries are taken as a list in an arbitrary order) and
calls `ReindexOne(client, alias, newIndex, remoteSrc, false, false, false)`
for each entry. -/

def ReindexAllM (st : ClusterState) (entries : List (String × String)) (remoteSrc : String) :
    Except RunErr (ClusterState × List Action) :=
  match entries with
  | [] => .ok (st, [])
  | (aliasName, newIndex) :: rest =>
    match ReindexOneRun st aliasName newIndex remoteSrc false false false with
    | .error e =>
      .error ⟨e.err, s!"failed reindexing to {newIndex} and adding to alias {aliasName}: {e.ctx}"⟩
    | .ok (st1, acts1) =>
      match ReindexAllM st1 rest remoteSrc with
      | .error e => .error e
      | .ok (st2, acts2) => .ok (st2, acts1 ++ acts2)

/-! ## UpdateTemplateAndCreateNewIndex (src/elasticsearch/elasdx.go lines 30-99)

The file read and the `time.Now()` call are effectful, so the file's parsed
template document and the formatted timestamp (`2006-01-02-15:04:05`) enter
as arguments.  None of the remaining calls can fail for state-derivable
reasons (the bulk-settings call targets an index that was just checked or
created), so the embedding is total. -/

def UpdateTemplateAndCreateNewIndexM (st : ClusterState) (filePath newIndexName : String)
    (fileTemplate : Template) (bulkIndexing includeTypeName : Bool)
    (extraSuffix nowFormatted : String) : String × ClusterState × List Action :=
  -- lines 36-50: template name = file base name minus ".json"; push the body
  let fileName := baseName filePath
  let indexName := trimDotJson fileName
  let st0 : ClusterState :=
    { st with templates :=
        (indexName, fileTemplate) :: st.templates.filter (fun p => p.1 != indexName) }
  -- lines 52-59: derive the destination index name
  let dateSuffix := replaceColons nowFormatted
  let resolvedName :=
    if newIndexName == "" then
      let dateSuffix2 := if extraSuffix != "" then dateSuffix ++ "-" ++ extraSuffix
                         else dateSuffix
      indexName ++ "-" ++ dateSuffix2
    else newIndexName
  -- lines 61-77: create only when the existence check reports it absent
  let created := !(st0.indices.contains resolvedName)
  let st1 := if created then { st0 with indices := st0.indices ++ [resolvedName] } else st0
  let acts1 :=
    if created then [Action.putTemplate indexName, Action.createIndex resolvedName]
    else [Action.putTemplate indexName]
  -- lines 79-96: bulk-indexing tuning (refresh_interval -1, replicas 0)
  let st2 := if bulkIndexing then setSettings st1 resolvedName (some "-1") (some "0") else st1
  let acts2 :=
    if bulkIndexing then acts1 ++ [Action.putSettings resolvedName (some "-1") (some "0")]
    else acts1
  (resolvedName, st2, acts2)

/-- A directory entry as `ioutil.ReadDir` reports it, with the parsed
template content of the file. -/
structure DirEntry where
  name : String
  isDir : Bool
  tpl : Template
deriving DecidableEq, Repr

/-! ## UpdateTemplatesAndCreateNewIndices (lines 101-126): per non-hidden,
non-directory file, provision and record alias ↦ new index. -/

def UpdateTemplatesAndCreateNewIndicesM (st : ClusterState) (templatesDir : String)
    (files : List DirEntry) (bulkIndexing includeTypeName : Bool)
    (extraSuffix nowFormatted : String) :
    List (String × String) × ClusterState × List Action :=
  match files with
  | [] => ([], st, [])
  | f :: rest =>
    if strStartsWith f.name "." || f.isDir then
      UpdateTemplatesAndCreateNewIndicesM st templatesDir rest bulkIndexing includeTypeName
        extraSuffix nowFormatted
    else
      let (newIndex, st1, acts1) :=
        UpdateTemplateAndCreateNewIndexM st (templatesDir ++ "/" ++ f.name) ""
          f.tpl bulkIndexing includeTypeName extraSuffix nowFormatted
      let aliasName := trimDotJson f.name
      let (entries, st2, acts2) :=
        UpdateTemplatesAndCreateNewIndicesM st1 templatesDir rest bulkIndexing includeTypeName
          extraSuffix nowFormatted
      ((aliasName, newIndex) :: entries, st2, acts1 ++ acts2)

/-! ## CLI `reindex` command (src/unnamed/part_001, `Reindex`, lines 133-210)

The command's observable behaviour is modelled as a trace of events:
`connect` is the client construction in `getClient` (which issues no
administrative API call in this repository's code), `adminCall` is one
administrative call against the cluster, `report` is a printed message, and
`exitCode` is `cli.ShowCommandHelpAndExit`'s `os.Exit`. -/

inductive CliEvent where
  | connect
  | adminCall (a : Action)
  | report (msg : String)
  | exitCode (n : Nat)
deriving DecidableEq, Repr

/-- The `reindex` command's flags.  `destIndex` and the two allocation flags
are `none` when unset (`c.IsSet` false); `c.String` on an unset flag yields
the empty string. -/
structure ReindexFlags where
  destIndex : Option String
  bulkIndexing : Bool
  versionExternal : Bool
  noUpdateAlias : Bool
  includeTypeName : Bool
  reindexHostAllocation : Option String
  destHostAllocation : Option String
  extraSuffix : String
deriving DecidableEq, Repr

def argsHelpMsg : String :=
  "This command requires a json index template file path or a directory of json index templates\n\n"

def destIndexHelpMsg : String :=
  "--dest-index not supported with multiple indexes, please only specify one index template .json."

/-- The single-template branch (lines 158-189): provision, optional reindex
host allocation, reindex-and-swap, optional destination host allocation.
On a library error the command returns it (no further calls); the actions a
failing library call had already issued before failing are not replayed
into the trace. -/
def reindexCliSingle (st : ClusterState) (flags : ReindexFlags) (filePath : String)
    (fileTemplate : Template) (nowFormatted : String) : List CliEvent :=
  let (newIndex, st1, acts1) :=
    UpdateTemplateAndCreateNewIndexM st filePath (flags.destIndex.getD "") fileTemplate
      flags.bulkIndexing flags.includeTypeName flags.extraSuffix nowFormatted
  let ev1 := acts1.map CliEvent.adminCall
  let ev2 := match flags.reindexHostAllocation with
    | some host => [CliEvent.adminCall (Action.setAllocation newIndex host)]
    | none => []
  let aliasName := trimDotJson (baseName filePath)
  match ReindexOneRun st1 aliasName newIndex "" flags.versionExternal flags.noUpdateAlias
      flags.bulkIndexing with
  | .error _ => ev1 ++ ev2
  | .ok (_, acts3) =>
    let ev3 := acts3.map CliEvent.adminCall
    let ev4 := match flags.destHostAllocation with
      | some host => [CliEvent.adminCall (Action.setAllocation newIndex host)]
      | none => []
    ev1 ++ ev2 ++ ev3 ++ ev4

/-- The directory branch (lines 191-207): reject `--dest-index`, otherwise
provision every file and run `ReindexAll` (which receives none of the
reindex flags). -/
def reindexCliDir (st : ClusterState) (flags : ReindexFlags) (directory : String)
    (dirFiles : List DirEntry) (nowFormatted : String) : List CliEvent :=
  if flags.destIndex.isSome then
    [CliEvent.report destIndexHelpMsg, CliEvent.exitCode 1]
  else
    let (entries, st1, acts1) :=
      UpdateTemplatesAndCreateNewIndicesM st directory dirFiles flags.bulkIndexing
        flags.includeTypeName flags.extraSuffix nowFormatted
    let ev1 := acts1.map CliEvent.adminCall
    match ReindexAllM st1 entries "" with
    | .error _ => ev1
    | .ok (_, acts2) => ev1 ++ acts2.map CliEvent.adminCall

/-- The `reindex` command action (lines 147-208). -/
def reindexCli (st : ClusterState) (flags : ReindexFlags) (args : List String)
    (fileTemplate : Template) (dirFiles : List DirEntry) (nowFormatted : String) :
    List CliEvent :=
  if args.length == 0 || args.length > 1 then
    [CliEvent.report argsHelpMsg, CliEvent.exitCode 1]
  else
    CliEvent.connect ::
    (let first := args.headD ""
     if strEndsWith first ".json" then
       reindexCliSingle st flags first fileTemplate nowFormatted
     else
       reindexCliDir st flags first dirFiles nowFormatted)

/-! ## Helper observers used by the claim statements -/

/-- The actions a library call issued, `[]` on the error path. -/
def logActions (r : Except RunErr (ClusterState × List Action)) : List Action :=
  match r with
  | .ok (_, acts) => acts
  | .error _ => []

def isReindexDocs : Action → Bool
  | .reindexDocs _ _ _ _ => true
  | _ => false

def isPutSettings : Action → Bool
  | .putSettings _ _ _ => true
  | _ => false

def isAdminCall : CliEvent → Bool
  | .adminCall _ => true
  | _ => false

/-- The removal loop of `UpdateAlias`, state part only. -/
def removeAllPairs (st : ClusterState) (idxs : List String) (aliasName : String) :
    ClusterState :=
  idxs.foldl (fun s i => removeAliasPair s i aliasName) st

/-- The sorted match list `CleanupOne` works through. -/
def cleanupMatches (st : ClusterState) (tplName : String) : List String :=
  sortStrings (st.indices.filter (fun i => strStartsWith i tplName))

/-- The first `len(matches) - N` sorted matches (the deletion candidates of a
cleanup with a non-negative max-history N). -/
def cleanupDeleted (st : ClusterState) (tplName : String) (N : Nat) : List String :=
  (cleanupMatches st tplName).take ((cleanupMatches st tplName).length - N)

/-- The last N sorted matches (what a cleanup with non-negative max-history N
retains). -/
def cleanupKept (st : ClusterState) (tplName : String) (N : Nat) : List String :=
  (cleanupMatches st tplName).drop ((cleanupMatches st tplName).length - N)

/-- Modelled from the spec's words for the refinement claim about the
destination index name: the explicit override when supplied, otherwise
`<file base name minus .json>-<timestamp with colons replaced by hyphens>`,
plus `-<extra suffix>` when an extra suffix is supplied. -/
def specDestIndexName (filePath override extraSuffix nowFormatted : String) : String :=
  if override != "" then override
  else
    let base := trimDotJson (baseName filePath)
    let ts := replaceColons nowFormatted
    if extraSuffix != "" then base ++ "-" ++ ts ++ "-" ++ extraSuffix
    else base ++ "-" ++ ts

/-! # Lemmas about the cleanup loop -/

theorem cleanupLoop_in_bounds (ms : List String) :
    ∀ (k i : Nat) (st : ClusterState), i + k ≤ ms.length →
    cleanupLoop st ms i k =
      some (((ms.drop i).take k).foldl deleteIndexState st,
            ((ms.drop i).take k).map Action.deleteIndex)
  | 0, i, st, _ => by simp [cleanupLoop]
  | k + 1, i, st, h => by
    have hi : i < ms.length := by omega
    have hd : ms.drop i = ms.get ⟨i, hi⟩ :: ms.drop (i + 1) := List.drop_eq_get_cons hi
    have hget : ms.get? i = some (ms.get ⟨i, hi⟩) := List.get?_eq_get hi
    have ih := cleanupLoop_in_bounds ms k (i + 1) (deleteIndexState st (ms.get ⟨i, hi⟩))
      (by omega)
    simp only [cleanupLoop, hget, ih, Option.map_some, hd, List.take_succ_cons,
      List.foldl_cons, List.map_cons]
    rfl

theorem cleanupOneM_nat (st : ClusterState) (pre : String) (N : Nat) :
    CleanupOneM st pre (N : Int) =
      some (((cleanupMatches st pre).take ((cleanupMatches st pre).length - N)).foldl
              deleteIndexState st,
            ((cleanupMatches st pre).take ((cleanupMatches st pre).length - N)).map
              Action.deleteIndex) := by
  have hms : sortStrings (st.indices.filter (fun i => strStartsWith i pre)) =
      cleanupMatches st pre := rfl
  have hk : (((cleanupMatches st pre).length : Int) - (N : Int)).toNat =
      (cleanupMatches st pre).length - N := by omega
  have := cleanupLoop_in_bounds (cleanupMatches st pre)
    ((cleanupMatches st pre).length - N) 0 st (by omega)
  simpa [CleanupOneM, hms, hk] using this

theorem foldl_deleteIndexState_indices :
    ∀ (ds : List String) (st : ClusterState),
      (ds.foldl deleteIndexState st).indices = ds.foldl List.erase st.indices
  | [], _ => rfl
  | d :: ds, st => by
    simpa [deleteIndexState] using foldl_deleteIndexState_indices ds (deleteIndexState st d)

theorem mem_foldl_erase : ∀ (ds : List String) (l : List String) (x : String),
    x ∈ l → x ∉ ds → x ∈ ds.foldl List.erase l
  | [], _, _, hx, _ => hx
  | d :: ds, l, x, hx, hnot => by
    have hne : x ≠ d := fun h => hnot (h ▸ List.mem_cons_self d ds)
    have : x ∈ l.erase d := (List.mem_erase_of_ne hne).mpr hx
    exact mem_foldl_erase ds (l.erase d) x this (fun h => hnot (List.mem_cons_of_mem d h))

theorem cleanupMatches_sorted (st : ClusterState) (pre : String) :
    (cleanupMatches st pre).Sorted (fun a b => a.data ≤ b.data) := by
  exact @List.sorted_insertionSort String (fun a b => a.data ≤ b.data) _
    ⟨fun a b => le_total a.data b.data⟩ ⟨fun _ _ _ h h2 => le_trans h h2⟩ _

theorem cleanupMatches_perm (st : ClusterState) (pre : String) :
    (cleanupMatches st pre).Perm (st.indices.filter (fun i => strStartsWith i pre)) :=
  List.perm_insertionSort _ _

/-- C1: for every name prefix and every non-negative max-history count N,
`CleanupOne` deletes exactly `max 0 (M - N)` indices, where M is the number
of cluster indices whose names start with the prefix: it sorts the M matches
lexicographically and deletes the first `M - N` of them in that order, and
the last N in sorted order are untouched — no delete call names them and
they survive in the final cluster state; for N = 0 every match is deleted. -/
theorem cleanupOne_spec (st : ClusterState) (pre : String) (N : Nat)
    (hnd : st.indices.Nodup) :
    ∃ stF,
      CleanupOneM st pre (N : Int) =
        some (stF, (cleanupDeleted st pre N).map Action.deleteIndex)
      ∧ (cleanupMatches st pre).Perm (st.indices.filter (fun i => strStartsWith i pre))
      ∧ (cleanupMatches st pre).Sorted (fun a b => a.data ≤ b.data)
      ∧ ((cleanupDeleted st pre N).map Action.deleteIndex).length =
          (((st.indices.filter (fun i => strStartsWith i pre)).length : Int) - (N : Int)).toNat
      ∧ ∀ x ∈ cleanupKept st pre N,
          x ∈ stF.indices ∧
          Action.deleteIndex x ∉ (cleanupDeleted st pre N).map Action.deleteIndex := by
  have hperm := cleanupMatches_perm st pre
  have hM : (cleanupMatches st pre).length =
      (st.indices.filter (fun i => strStartsWith i pre)).length := hperm.length_eq
  have hnodms : (cleanupMatches st pre).Nodup :=
    hperm.nodup_iff.mpr (hnd.filter _)
  have hsplit := List.take_append_drop
    ((cleanupMatches st pre).length - N) (cleanupMatches st pre)
  have hdisj : (cleanupDeleted st pre N).Disjoint (cleanupKept st pre N) := by
    have h2 : (cleanupDeleted st pre N ++ cleanupKept st pre N).Nodup := by
      unfold cleanupDeleted cleanupKept
      rw [hsplit]
      exact hnodms
    exact (List.nodup_append.mp h2).2.2
  refine ⟨(cleanupDeleted st pre N).foldl deleteIndexState st, cleanupOneM_nat st pre N,
    hperm, cleanupMatches_sorted st pre, ?_, ?_⟩
  · have hlen : (cleanupDeleted st pre N).length =
        (cleanupMatches st pre).length - N := by
      unfold cleanupDeleted
      simp [List.length_take]
    simp only [List.length_map, hlen]
    omega
  · intro x hx
    have hxnot : x ∉ cleanupDeleted st pre N := fun hmem => hdisj hmem hx
    constructor
    · rw [foldl_deleteIndexState_indices]
      have hxms : x ∈ cleanupMatches st pre := by
        unfold cleanupKept at hx
        exact List.mem_of_mem_drop hx
      have hxidx : x ∈ st.indices :=
        (List.mem_filter.mp (hperm.mem_iff.mp hxms)).1
      exact mem_foldl_erase _ _ _ hxidx hxnot
    · intro hmem
      obtain ⟨y, hy, he⟩ := List.mem_map.mp hmem
      cases he
      exact hxnot hy

/-- Witness for C1 at a concrete cluster: four indices, three matching the
name `tw`, max-history 2. -/
theorem cleanupOne_spec_witness :
    ∃ stF,
      CleanupOneM ⟨["tw-1", "tw-2", "tw-3", "zz"], [], [], []⟩ "tw" ((2 : Nat) : Int) =
        some (stF, (cleanupDeleted ⟨["tw-1", "tw-2", "tw-3", "zz"], [], [], []⟩ "tw" 2).map
          Action.deleteIndex)
      ∧ (cleanupMatches ⟨["tw-1", "tw-2", "tw-3", "zz"], [], [], []⟩ "tw").Perm
          ((["tw-1", "tw-2", "tw-3", "zz"] : List String).filter (fun i => strStartsWith i "tw"))
      ∧ (cleanupMatches ⟨["tw-1", "tw-2", "tw-3", "zz"], [], [], []⟩ "tw").Sorted
          (fun a b => a.data ≤ b.data)
      ∧ ((cleanupDeleted ⟨["tw-1", "tw-2", "tw-3", "zz"], [], [], []⟩ "tw" 2).map
          Action.deleteIndex).length =
          ((((["tw-1", "tw-2", "tw-3", "zz"] : List String).filter
              (fun i => strStartsWith i "tw")).length : Int) - ((2 : Nat) : Int)).toNat
      ∧ ∀ x ∈ cleanupKept ⟨["tw-1", "tw-2", "tw-3", "zz"], [], [], []⟩ "tw" 2,
          x ∈ stF.indices ∧
          Action.deleteIndex x ∉
            (cleanupDeleted ⟨["tw-1", "tw-2", "tw-3", "zz"], [], [], []⟩ "tw" 2).map
              Action.deleteIndex :=
  cleanupOne_spec ⟨["tw-1", "tw-2", "tw-3", "zz"], [], [], []⟩ "tw" 2 (by decide)

/-- C10: with a non-negative max-history the deletion loop of `CleanupOne`
only ever accesses in-bounds positions of the sorted match list (no run
reaches the out-of-range panic), and the non-negativity really is needed: a
negative max-history (which the CLI's `--max-history` int flag does not
rule out) drives the loop bound past the end of the list. -/
theorem cleanupOne_bounds :
    (∀ (st : ClusterState) (pre : String) (N : Int), 0 ≤ N →
      (CleanupOneM st pre N).isSome = true)
    ∧ CleanupOneM ⟨["a"], [], [], []⟩ "a" (-1) = none := by
  constructor
  · intro st pre N h
    obtain ⟨n, rfl⟩ : ∃ n : Nat, N = (n : Int) := ⟨N.toNat, (Int.toNat_of_nonneg h).symm⟩
    rw [cleanupOneM_nat]
    rfl
  · decide

/-- Witness for C10 at a concrete cluster and max-history 3. -/
theorem cleanupOne_bounds_witness :
    (CleanupOneM ⟨["a"], [], [], []⟩ "a" (3 : Int)).isSome = true :=
  cleanupOne_bounds.1 ⟨["a"], [], [], []⟩ "a" 3 (by decide)

/-! # UpdateAlias: the missing-destination branch -/

/-- C9: when the destination index does not exist and the existence check
itself completes without a transport error, `UpdateAlias` performs no alias
mutation at all and returns a nil error (`errors.Wrapf(nil, ...)` is `nil`):
the cluster state is unchanged and no call beyond the existence check is
issued. -/
theorem updateAlias_missing_dest_noop (st : ClusterState) (aliasName newIndex : String)
    (h : st.indices.contains newIndex = false) :
    UpdateAliasM st aliasName newIndex = .ok (st, []) := by
  simp only [UpdateAliasM, h, Bool.not_false, if_true]

/-- Witness for C9: destination `i2` absent from a cluster holding only `i1`. -/
theorem updateAlias_missing_dest_noop_witness :
    UpdateAliasM ⟨["i1"], [("i1", "al")], [], []⟩ "al" "i2" =
      .ok (⟨["i1"], [("i1", "al")], [], []⟩, []) :=
  updateAlias_missing_dest_noop ⟨["i1"], [("i1", "al")], [], []⟩ "al" "i2" (by decide)

/-- C2 (failing run): with two indices aliased to `al` and a destination
index `i3` that does not exist, `UpdateAlias` returns no error (the
`errors.Wrapf(nil, ...)` slip) yet removes nothing and adds nothing, so two
indices are still associated with the alias after a "successful" swap —
contradicting the claimed exactly-one post-condition. -/
theorem updateAlias_nil_error_leaves_two_aliased :
    UpdateAliasM ⟨["i1", "i2"], [("i1", "al"), ("i2", "al")], [], []⟩ "al" "i3" =
      .ok (⟨["i1", "i2"], [("i1", "al"), ("i2", "al")], [], []⟩, [])
    ∧ (aliasedTo ⟨["i1", "i2"], [("i1", "al"), ("i2", "al")], [], []⟩ "al").length = 2 := by
  exact ⟨rfl, by decide⟩

/-! # Provisioner: name derivation and idempotent creation -/

theorem map_colon_eq : ∀ (l1 l2 : List Char),
    l1.map (fun c => c == ':') = l2.map (fun c => c == ':') →
    l1.map (fun c => if c = ':' then '-' else c) =
      l2.map (fun c => if c = ':' then '-' else c) →
    l1 = l2
  | [], [], _, _ => rfl
  | [], _ :: _, h, _ => by simp at h
  | _ :: _, [], h, _ => by simp at h
  | a :: l1, b :: l2, h, h2 => by
    simp only [List.map_cons, List.cons.injEq] at h h2
    have hab : a = b := by
      by_cases ha : a = ':' <;> by_cases hb : b = ':'
      · rw [ha, hb]
      · exfalso
        rw [ha] at h
        simp [hb] at h
      · exfalso
        rw [hb] at h
        simp [ha] at h
      · have h3 := h2.1
        rw [if_neg ha, if_neg hb] at h3
        exact h3
    subst hab
    exact congrArg (a :: ·) (map_colon_eq l1 l2 h.2 h2.2)

theorem replaceColons_inj (s t : String) (hsh : colonShape s = colonShape t)
    (h : replaceColons s = replaceColons t) : s = t := by
  have hd : s.data.map (fun c => if c = ':' then '-' else c) =
      t.data.map (fun c => if c = ':' then '-' else c) :=
    congrArg String.data h
  exact congrArg String.mk (map_colon_eq s.data t.data hsh hd)

theorem specDestIndexName_inj (filePath extra now1 now2 : String)
    (hsh : colonShape now1 = colonShape now2) (hne : now1 ≠ now2) :
    specDestIndexName filePath "" extra now1 ≠ specDestIndexName filePath "" extra now2 := by
  intro he
  apply hne
  apply replaceColons_inj now1 now2 hsh
  unfold specDestIndexName at he
  simp only [show (("" : String) != "") = false from rfl, Bool.false_eq_true, if_false] at he
  by_cases hex : (extra != "") = true
  · rw [if_pos hex, if_pos hex] at he
    have hdata := congrArg String.data he
    simp only [String.data_append, List.append_assoc] at hdata
    have h1 := List.append_cancel_left hdata
    have h2 := List.append_cancel_left h1
    have h3 := List.append_cancel_right h2
    exact congrArg String.mk h3
  · rw [if_neg hex, if_neg hex] at he
    have hdata := congrArg String.data he
    simp only [String.data_append, List.append_assoc] at hdata
    have h1 := List.append_cancel_left hdata
    have h2 := List.append_cancel_left h1
    exact congrArg String.mk h2

/-- The name derivation of lines 52-59, written against the spec-side
`specDestIndexName` (the two differ only in the association of the string
appends). -/
theorem resolvedName_eq (filePath o extra now : String) :
    (if (o == "") = true then
       trimDotJson (baseName filePath) ++ "-" ++
         (if (extra != "") = true then replaceColons now ++ "-" ++ extra
          else replaceColons now)
     else o) = specDestIndexName filePath o extra now := by
  unfold specDestIndexName
  by_cases ho : (o == "") = true
  · have ho' : (o != "") = false := by simp_all
    simp only [ho, ho', if_true, Bool.false_eq_true, if_false]
    by_cases hex : (extra != "") = true
    · simp only [hex, if_true]
      simp [String.append_assoc]
    · simp [hex]
  · have ho' : (o != "") = true := by simp_all
    simp only [ho, ho', if_true, Bool.false_eq_true, if_false]

/-- C5: the destination index name `UpdateTemplateAndCreateNewIndex` returns
is the explicit override when one is supplied (the extra suffix being
ignored), and otherwise the file base name minus `.json`, then `-`, then the
timestamp with every colon replaced by a hyphen, then `-<extra suffix>` when
an extra suffix is supplied; two no-override runs whose formatted timestamps
differ (same colon positions, as any two outputs of the fixed-width format
have) produce distinct names; and the template document is pushed under the
template name derived from the file alone, identical across runs. -/
theorem updateTemplate_name_derivation (st : ClusterState)
    (filePath override extraSuffix nowFormatted : String) (tpl : Template)
    (bulkIndexing includeTypeName : Bool) :
    (UpdateTemplateAndCreateNewIndexM st filePath override tpl bulkIndexing includeTypeName
        extraSuffix nowFormatted).1 =
      specDestIndexName filePath override extraSuffix nowFormatted
    ∧ Action.putTemplate (trimDotJson (baseName filePath)) ∈
        (UpdateTemplateAndCreateNewIndexM st filePath override tpl bulkIndexing includeTypeName
          extraSuffix nowFormatted).2.2
    ∧ (∀ now1 now2 : String, colonShape now1 = colonShape now2 → now1 ≠ now2 →
        (UpdateTemplateAndCreateNewIndexM st filePath "" tpl bulkIndexing includeTypeName
          extraSuffix now1).1 ≠
        (UpdateTemplateAndCreateNewIndexM st filePath "" tpl bulkIndexing includeTypeName
          extraSuffix now2).1) := by
  have hname : ∀ o now : String,
      (UpdateTemplateAndCreateNewIndexM st filePath o tpl bulkIndexing includeTypeName
        extraSuffix now).1 = specDestIndexName filePath o extraSuffix now := by
    intro o now
    simp only [UpdateTemplateAndCreateNewIndexM, resolvedName_eq]
  refine ⟨hname override nowFormatted, ?_, ?_⟩
  · simp only [UpdateTemplateAndCreateNewIndexM]
    split_ifs <;> simp
  · intro now1 now2 hsh hne
    rw [hname "" now1, hname "" now2]
    exact specDestIndexName_inj filePath extraSuffix now1 now2 hsh hne

/-- Witness for C5 (third conjunct has hypotheses): file `tw.json`, two
timestamps differing in the seconds digit. -/
theorem updateTemplate_name_derivation_witness :
    (UpdateTemplateAndCreateNewIndexM ⟨[], [], [], []⟩ "tw.json" "" ⟨none, none⟩ false false
      "x" "2020-01-02-15:04:05").1 ≠
    (UpdateTemplateAndCreateNewIndexM ⟨[], [], [], []⟩ "tw.json" "" ⟨none, none⟩ false false
      "x" "2020-01-02-15:04:06").1 :=
  (updateTemplate_name_derivation ⟨[], [], [], []⟩ "tw.json" "" "x" "2020-01-02-15:04:05"
    ⟨none, none⟩ false false).2.2 "2020-01-02-15:04:05" "2020-01-02-15:04:06"
    (by decide) (by decide)

/-- C6: provisioning is idempotent for index creation: the create call is
issued exactly when the existence check reports the resolved destination
index absent, and either way the function returns that resolved name, with
the index present afterwards. -/
theorem updateTemplate_idempotent_create (st : ClusterState)
    (filePath override extraSuffix nowFormatted : String) (tpl : Template)
    (bulkIndexing includeTypeName : Bool) :
    (Action.createIndex (specDestIndexName filePath override extraSuffix nowFormatted) ∈
        (UpdateTemplateAndCreateNewIndexM st filePath override tpl bulkIndexing includeTypeName
          extraSuffix nowFormatted).2.2
      ↔ specDestIndexName filePath override extraSuffix nowFormatted ∉ st.indices)
    ∧ (UpdateTemplateAndCreateNewIndexM st filePath override tpl bulkIndexing includeTypeName
        extraSuffix nowFormatted).2.1.indices =
      (if specDestIndexName filePath override extraSuffix nowFormatted ∈ st.indices
       then st.indices
       else st.indices ++ [specDestIndexName filePath override extraSuffix nowFormatted]) := by
  simp only [UpdateTemplateAndCreateNewIndexM, resolvedName_eq]
  split_ifs with h1 h2 h2 <;>
    simp_all [List.elem_iff, setSettings]

/-! # Lemmas about the alias swap and the reindex orchestration -/

theorem aliasLookup_error (st : ClusterState) (a : String) (e : EsErr)
    (h : aliasLookup st a = .error e) : e = .notFound := by
  unfold aliasLookup at h
  split at h
  · cases h
    rfl
  · cases h

theorem aliasLookup_cases (st : ClusterState) (a : String) :
    aliasLookup st a = .error .notFound ∨ aliasLookup st a = .ok (aliasedTo st a) := by
  unfold aliasLookup
  split
  · exact .inl rfl
  · exact .inr rfl

theorem removeFold_eq (aliasName : String) : ∀ (idxs : List String) (st : ClusterState)
    (acc : List Action),
    (idxs.foldl (fun (p : ClusterState × List Action) i =>
        (removeAliasPair p.1 i aliasName, p.2 ++ [Action.aliasRemove i aliasName])) (st, acc)) =
      (removeAllPairs st idxs aliasName,
       acc ++ idxs.map (fun i => Action.aliasRemove i aliasName))
  | [], st, acc => by simp [removeAllPairs]
  | i :: idxs, st, acc => by
    simp only [List.foldl_cons, removeFold_eq aliasName idxs (removeAliasPair st i aliasName)
      (acc ++ [Action.aliasRemove i aliasName]), removeAllPairs, List.map_cons,
      List.append_assoc, List.singleton_append]

theorem removeAllPairs_fields : ∀ (idxs : List String) (st : ClusterState) (a : String),
    (removeAllPairs st idxs a).indices = st.indices
    ∧ (removeAllPairs st idxs a).templates = st.templates
    ∧ (removeAllPairs st idxs a).settings = st.settings
  | [], _, _ => ⟨rfl, rfl, rfl⟩
  | i :: idxs, st, a => by
    simpa [removeAllPairs, removeAliasPair] using
      removeAllPairs_fields idxs (removeAliasPair st i a) a

/-- A successful `UpdateAlias` leaves indices, templates and settings alone,
and its calls are alias removals for the alias plus the final addition of
the new index. -/
theorem updateAliasM_ok_inv (st : ClusterState) (a n : String) (st' : ClusterState)
    (acts : List Action) (h : UpdateAliasM st a n = .ok (st', acts)) :
    st'.indices = st.indices ∧ st'.templates = st.templates ∧ st'.settings = st.settings ∧
    ∀ act ∈ acts, (∃ i, act = Action.aliasRemove i a) ∨ act = Action.aliasAdd n a := by
  unfold UpdateAliasM at h
  by_cases hc : st.indices.contains n = true
  · simp only [hc, Bool.not_true, Bool.false_eq_true, if_false] at h
    split at h
    · next idxs hl =>
      rw [removeFold_eq a idxs st []] at h
      cases h
      obtain ⟨h1, h2, h3⟩ := removeAllPairs_fields idxs st a
      refine ⟨h1, h2, h3, ?_⟩
      intro act hact
      rcases List.mem_append.mp hact with hm | hm
      · rcases List.mem_map.mp (by simpa using hm) with ⟨i, _, rfl⟩
        exact .inl ⟨i, rfl⟩
      · simp only [List.mem_singleton] at hm
        exact .inr hm
    · next e hl =>
      have he : e = .notFound := aliasLookup_error st a e hl
      subst he
      simp only [if_pos rfl] at h
      cases h
      refine ⟨rfl, rfl, rfl, ?_⟩
      intro act hact
      simp only [List.mem_singleton] at hact
      exact .inr hact
  · simp only [Bool.not_eq_true] at hc
    simp only [hc, Bool.not_false, if_true] at h
    cases h
    exact ⟨rfl, rfl, rfl, fun act hact => absurd hact (List.not_mem_nil act)⟩

/-- When the destination index exists, `UpdateAlias` succeeds and its last
call adds the new index to the alias. -/
theorem updateAliasM_ok_exists (st : ClusterState) (a n : String)
    (hc : st.indices.contains n = true) :
    ∃ st' acts, UpdateAliasM st a n = .ok (st', acts) ∧ Action.aliasAdd n a ∈ acts := by
  unfold UpdateAliasM
  simp only [hc, Bool.not_true, Bool.false_eq_true, if_false]
  rcases aliasLookup_cases st a with hl | hl <;> rw [hl] <;> dsimp only
  · simp only [if_pos rfl]
    exact ⟨_, _, rfl, List.mem_singleton.mpr rfl⟩
  · rw [removeFold_eq a (aliasedTo st a) st []]
    exact ⟨_, _, rfl, List.mem_append.mpr (.inr (List.mem_singleton.mpr rfl))⟩

theorem mem_reindexCopyActs (req : Bool) (res : List String) (a n r : String) (vE : Bool)
    (act : Action) (h : act ∈ reindexCopyActs req res a n r vE) :
    ∃ s, act = Action.reindexDocs s n (if vE = true then "external" else "internal")
      (r != "") := by
  unfold reindexCopyActs at h
  split at h
  · rcases List.mem_map.mp h with ⟨i, _, rfl⟩
    exact ⟨i, rfl⟩
  · cases h

/-- `ReindexOne`, once the lookup phase produced `reindexingRequired = req`
and index list `res`, is the copy calls followed by the restore-and-swap
tail. -/
theorem reindexOneM_decompose (st : ClusterState) (lookup : Except EsErr (List String))
    (a n r : String) (vE nUA bI : Bool) (req : Bool) (res : List String)
    (hph : (match lookup with
            | .ok l => Except.ok (true, l)
            | .error e =>
              if e = .notFound then Except.ok (false, ([] : List String))
              else Except.error
                (⟨e, s!"failed trying to lookup alias {a}"⟩ : RunErr))
           = (Except.ok (req, res) : Except RunErr (Bool × List String))) :
    ReindexOneM st lookup a n r vE nUA bI =
      match restoreAndSwap st a n nUA bI with
      | .error e => .error e
      | .ok (st2, acts) => .ok (st2, reindexCopyActs req res a n r vE ++ acts) := by
  unfold ReindexOneM restoreAndSwap
  rw [hph]
  dsimp only
  cases h1 : (if !nUA || !bI then restorePhase st a n else .ok (st, [])) with
  | error e => rfl
  | ok p =>
    obtain ⟨st1, acts1⟩ := p
    cases hn : nUA with
    | true =>
      simp only [Bool.not_true, Bool.false_eq_true, if_false]
      simp [reindexCopyActs]
    | false =>
      simp only [Bool.not_false, if_true]
      cases h2 : UpdateAliasM st1 a n with
      | error e => rfl
      | ok q =>
        obtain ⟨st2, acts2⟩ := q
        simp [reindexCopyActs, List.append_assoc]

theorem restorePhase_ok (st : ClusterState) (a n : String) (t : Template)
    (htpl : st.templates.lookup a = some t) (hidx : st.indices.contains n = true) :
    restorePhase st a n =
      .ok (setSettings st n t.refreshInterval t.numberOfReplicas,
           [Action.putSettings n t.refreshInterval t.numberOfReplicas]) := by
  unfold restorePhase putSettingsCall
  rw [htpl]
  dsimp only
  simp only [hidx, if_true]

/-- The master success lemma for `ReindexOne` on the honest lookup: when the
restore is not suppressed, the template exists and the destination index
exists, the run succeeds, leaves indices and templates alone, puts the
destination's settings to the template's two values, and (unless the swap is
suppressed) ends by adding the destination to the alias; every document-copy
call carries the version type selected by `versionExternal`. -/
theorem reindexOneRun_ok (st : ClusterState) (a n r : String) (vE nUA bI : Bool)
    (t : Template) (hsup : (!nUA || !bI) = true)
    (htpl : st.templates.lookup a = some t) (hidx : st.indices.contains n = true) :
    ∃ stF acts, ReindexOneRun st a n r vE nUA bI = .ok (stF, acts)
      ∧ stF.indices = st.indices
      ∧ stF.templates = st.templates
      ∧ stF.settings.lookup n = some ⟨t.refreshInterval, t.numberOfReplicas⟩
      ∧ Action.putSettings n t.refreshInterval t.numberOfReplicas ∈ acts
      ∧ (∀ s d v rem, Action.reindexDocs s d v rem ∈ acts →
          v = (if vE = true then "external" else "internal"))
      ∧ (nUA = false → Action.aliasAdd n a ∈ acts) := by
  have hset_idx : (setSettings st n t.refreshInterval t.numberOfReplicas).indices =
      st.indices := rfl
  have hset_tpl : (setSettings st n t.refreshInterval t.numberOfReplicas).templates =
      st.templates := rfl
  -- the lookup phase of the honest run
  have hph : ∃ req res, ReindexOneRun st a n r vE nUA bI =
      match restoreAndSwap st a n nUA bI with
      | .error e => .error e
      | .ok (st2, acts) => .ok (st2, reindexCopyActs req res a n r vE ++ acts) := by
    rcases aliasLookup_cases st a with hl | hl
    · exact ⟨false, [], by
        unfold ReindexOneRun
        rw [hl]
        exact reindexOneM_decompose st _ a n r vE nUA bI false [] rfl⟩
    · exact ⟨true, aliasedTo st a, by
        unfold ReindexOneRun
        rw [hl]
        exact reindexOneM_decompose st _ a n r vE nUA bI true (aliasedTo st a) rfl⟩
  obtain ⟨req, res, hrun⟩ := hph
  have hres := restorePhase_ok st a n t htpl hidx
  have hsettings : (setSettings st n t.refreshInterval t.numberOfReplicas).settings.lookup n =
      some ⟨t.refreshInterval, t.numberOfReplicas⟩ := by
    simp [setSettings, List.lookup]
  cases hn : nUA with
  | true =>
    have hb : bI = false := by
      cases hb : bI
      · rfl
      · rw [hn, hb] at hsup
        simp at hsup
    have hras : restoreAndSwap st a n true bI =
        .ok (setSettings st n t.refreshInterval t.numberOfReplicas,
             [Action.putSettings n t.refreshInterval t.numberOfReplicas]) := by
      unfold restoreAndSwap
      rw [hb]
      simp only [Bool.not_true, Bool.not_false, Bool.false_or, if_true, hres]
      simp
    rw [hn] at hrun
    rw [hras] at hrun
    refine ⟨_, _, hrun, hset_idx, hset_tpl, hsettings, ?_, ?_, ?_⟩
    · exact List.mem_append.mpr (.inr (List.mem_singleton.mpr rfl))
    · intro s d v rem hmem
      rcases List.mem_append.mp hmem with hm | hm
      · obtain ⟨s', he⟩ := mem_reindexCopyActs req res a n r vE _ hm
        cases he
        rfl
      · simp only [List.mem_singleton] at hm
        cases hm
    · intro hfalse
      cases hfalse
  | false =>
    obtain ⟨st2, acts2, hua, hadd⟩ := updateAliasM_ok_exists
      (setSettings st n t.refreshInterval t.numberOfReplicas) a n hidx
    obtain ⟨hind2, htpl2, hset2, hshape2⟩ := updateAliasM_ok_inv _ a n _ _ hua
    have hras : restoreAndSwap st a n false bI = .ok (st2,
        Action.putSettings n t.refreshInterval t.numberOfReplicas :: acts2) := by
      unfold restoreAndSwap
      simp only [Bool.not_false, Bool.true_or, if_true, hres]
      rw [hua]
      simp
    rw [hn] at hrun
    rw [hras] at hrun
    refine ⟨st2, _, hrun, by rw [hind2, hset_idx], by rw [htpl2, hset_tpl],
      by rw [hset2]; exact hsettings, ?_, ?_, ?_⟩
    · exact List.mem_append.mpr (.inr (List.mem_cons_self _ _))
    · intro s d v rem hmem
      rcases List.mem_append.mp hmem with hm | hm
      · obtain ⟨s', he⟩ := mem_reindexCopyActs req res a n r vE _ hm
        cases he
        rfl
      · rcases List.mem_cons.mp hm with hm2 | hm2
        · cases hm2
        · rcases hshape2 _ hm2 with ⟨i, he⟩ | he <;> cases he
    · intro _
      exact List.mem_append.mpr (.inr (List.mem_cons_of_mem _ hadd))

theorem restorePhase_acts (st : ClusterState) (a n : String) (st' : ClusterState)
    (acts : List Action) (h : restorePhase st a n = .ok (st', acts)) :
    ∀ act ∈ acts, isReindexDocs act = false ∧ isPutSettings act = true := by
  unfold restorePhase at h
  split at h
  · cases h
  · split at h
    · cases h
    · cases h
      intro act hact
      simp only [List.mem_singleton] at hact
      subst hact
      exact ⟨rfl, rfl⟩

/-- No call of the restore-and-swap tail is a document-copy call. -/
theorem restoreAndSwap_no_copy (st : ClusterState) (a n : String) (nUA bI : Bool) :
    (logActions (restoreAndSwap st a n nUA bI)).countP isReindexDocs = 0 := by
  unfold restoreAndSwap
  cases h1 : (if !nUA || !bI then restorePhase st a n else .ok (st, [])) with
  | error e => rfl
  | ok p =>
    obtain ⟨st1, acts1⟩ := p
    have hacts1 : ∀ act ∈ acts1, isReindexDocs act = false := by
      by_cases hc : (!nUA || !bI) = true
      · rw [if_pos hc] at h1
        exact fun act hact => (restorePhase_acts st a n st1 acts1 h1 act hact).1
      · rw [if_neg hc] at h1
        cases h1
        intro act hact
        cases hact
    cases hn : nUA with
    | true =>
      simp only [Bool.not_true, Bool.false_eq_true, if_false]
      refine List.countP_eq_zero.mpr ?_
      intro act hact
      simp only [logActions] at hact
      simp [hacts1 act hact]
    | false =>
      simp only [Bool.not_false, if_true]
      cases h2 : UpdateAliasM st1 a n with
      | error e => rfl
      | ok q =>
        obtain ⟨st2, acts2⟩ := q
        obtain ⟨_, _, _, hshape⟩ := updateAliasM_ok_inv st1 a n st2 acts2 h2
        refine List.countP_eq_zero.mpr ?_
        intro act hact
        simp only [logActions] at hact
        rcases List.mem_append.mp hact with hm | hm
        · simp [hacts1 act hm]
        · rcases hshape act hm with ⟨i, he⟩ | he <;> subst he <;> simp [isReindexDocs]

/-- C3: a not-found result on `ReindexOne`'s initial alias lookup (with no
remote source) is not an error: the run continues exactly as the
restore-and-swap tail (settings restore then alias swap, each under its own
flag), the document-copy step issuing no call; any lookup failure other than
not-found is returned as a wrapped error. -/
theorem reindexOne_notFound_skips_copy (st : ClusterState) (aliasName newIndex : String)
    (vE nUA bI : Bool) :
    ReindexOneM st (.error .notFound) aliasName newIndex "" vE nUA bI =
      restoreAndSwap st aliasName newIndex nUA bI
    ∧ (logActions (ReindexOneM st (.error .notFound) aliasName newIndex "" vE nUA bI)).countP
        isReindexDocs = 0
    ∧ ∀ (c : Nat) (remoteSrc : String),
        ReindexOneM st (.error (.transport c)) aliasName newIndex remoteSrc vE nUA bI =
          .error ⟨.transport c, s!"failed trying to lookup alias {aliasName}"⟩ := by
  have hA : ReindexOneM st (.error .notFound) aliasName newIndex "" vE nUA bI =
      restoreAndSwap st aliasName newIndex nUA bI := by
    rw [reindexOneM_decompose st _ aliasName newIndex "" vE nUA bI false [] rfl]
    cases h : restoreAndSwap st aliasName newIndex nUA bI with
    | error e => rfl
    | ok p =>
      obtain ⟨st2, acts⟩ := p
      simp [reindexCopyActs]
  refine ⟨hA, ?_, ?_⟩
  · rw [hA]
    exact restoreAndSwap_no_copy st aliasName newIndex nUA bI
  · intro c remoteSrc
    rfl

/-- C4: unless both `no-update-alias` and `bulk-indexing` are set,
`ReindexOne` puts the destination's `refresh_interval` and
`number_of_replicas` back to the template's declared values (a value the
template omits becomes `null`, the cluster default); when both flags are set
no settings call is issued at all. -/
theorem reindexOne_restore_spec (st : ClusterState) (aliasName newIndex remoteSrc : String)
    (vE nUA bI : Bool) (t : Template)
    (hsup : ¬(nUA = true ∧ bI = true))
    (htpl : st.templates.lookup aliasName = some t)
    (hidx : st.indices.contains newIndex = true) :
    (∃ stF acts, ReindexOneRun st aliasName newIndex remoteSrc vE nUA bI = .ok (stF, acts)
      ∧ Action.putSettings newIndex t.refreshInterval t.numberOfReplicas ∈ acts
      ∧ stF.settings.lookup newIndex = some ⟨t.refreshInterval, t.numberOfReplicas⟩)
    ∧ ∀ (vE' : Bool) (r' : String),
        (logActions (ReindexOneRun st aliasName newIndex r' vE' true true)).countP
          isPutSettings = 0 := by
  constructor
  · have hsup' : (!nUA || !bI) = true := by
      cases nUA <;> cases bI <;> simp_all
    obtain ⟨stF, acts, hrun, _, _, hset, hmem, _, _⟩ :=
      reindexOneRun_ok st aliasName newIndex remoteSrc vE nUA bI t hsup' htpl hidx
    exact ⟨stF, acts, hrun, hmem, hset⟩
  · intro vE' r'
    have hras : restoreAndSwap st aliasName newIndex true true = .ok (st, []) := rfl
    have hex : ∃ req res, ReindexOneRun st aliasName newIndex r' vE' true true =
        .ok (st, reindexCopyActs req res aliasName newIndex r' vE' ++ []) := by
      rcases aliasLookup_cases st aliasName with hl | hl
      · refine ⟨false, [], ?_⟩
        unfold ReindexOneRun
        rw [hl, reindexOneM_decompose st _ aliasName newIndex r' vE' true true false [] rfl,
          hras]
      · refine ⟨true, aliasedTo st aliasName, ?_⟩
        unfold ReindexOneRun
        rw [hl, reindexOneM_decompose st _ aliasName newIndex r' vE' true true true _ rfl,
          hras]
    obtain ⟨req, res, hrw⟩ := hex
    rw [hrw]
    refine List.countP_eq_zero.mpr ?_
    intro act hact
    simp only [logActions, List.append_nil] at hact
    obtain ⟨s, he⟩ := mem_reindexCopyActs req res aliasName newIndex r' vE' act hact
    subst he
    simp [isPutSettings]

/-- Witness for C4: template `tw` declaring a refresh interval but no
replica count, destination `tw-1` existing, all flags unset. -/
theorem reindexOne_restore_spec_witness :
    (∃ stF acts,
      ReindexOneRun ⟨["tw-1"], [], [("tw", ⟨some "5s", none⟩)], []⟩ "tw" "tw-1" "" false false
          false = .ok (stF, acts)
      ∧ Action.putSettings "tw-1" (some "5s") none ∈ acts
      ∧ stF.settings.lookup "tw-1" = some ⟨some "5s", none⟩)
    ∧ ∀ (vE' : Bool) (r' : String),
        (logActions (ReindexOneRun ⟨["tw-1"], [], [("tw", ⟨some "5s", none⟩)], []⟩ "tw" "tw-1"
          r' vE' true true)).countP isPutSettings = 0 :=
  reindexOne_restore_spec ⟨["tw-1"], [], [("tw", ⟨some "5s", none⟩)], []⟩ "tw" "tw-1" ""
    false false false ⟨some "5s", none⟩ (by simp) (by decide) (by decide)

/-! # The CLI reindex command -/

/-- C7: invoking the `reindex` command with `--dest-index` set and a
non-`.json` (directory) argument reports the malformed combination and exits
with code 1; no administrative cluster call appears in the trace (the only
prior step is the client construction, which issues none in this code). -/
theorem reindexCli_destIndex_with_directory_exits (st : ClusterState)
    (flags : ReindexFlags) (arg : String) (ft : Template) (df : List DirEntry)
    (now : String) (hdest : flags.destIndex.isSome = true)
    (harg : strEndsWith arg ".json" = false) :
    reindexCli st flags [arg] ft df now =
      [CliEvent.connect, CliEvent.report destIndexHelpMsg, CliEvent.exitCode 1]
    ∧ (reindexCli st flags [arg] ft df now).countP isAdminCall = 0 := by
  have h : reindexCli st flags [arg] ft df now =
      [CliEvent.connect, CliEvent.report destIndexHelpMsg, CliEvent.exitCode 1] := by
    unfold reindexCli reindexCliDir
    simp [harg, hdest]
  refine ⟨h, ?_⟩
  rw [h]
  rfl

/-- Witness for C7: a directory argument with `--dest-index somedest`. -/
theorem reindexCli_destIndex_with_directory_exits_witness :
    reindexCli ⟨[], [], [], []⟩ ⟨some "somedest", false, false, false, false, none, none, ""⟩
        ["templates"] ⟨none, none⟩ [] "now" =
      [CliEvent.connect, CliEvent.report destIndexHelpMsg, CliEvent.exitCode 1]
    ∧ (reindexCli ⟨[], [], [], []⟩
        ⟨some "somedest", false, false, false, false, none, none, ""⟩
        ["templates"] ⟨none, none⟩ [] "now").countP isAdminCall = 0 :=
  reindexCli_destIndex_with_directory_exits ⟨[], [], [], []⟩
    ⟨some "somedest", false, false, false, false, none, none, ""⟩ "templates" ⟨none, none⟩ []
    "now" (by decide) (by decide)

/-- Batch reindexing: under the per-entry preconditions (template present,
destination index present), `ReindexAll` succeeds; every document-copy call
uses the internal version type, and every entry gets its settings restore
call and its alias addition. -/
theorem reindexAllM_success : ∀ (entries : List (String × String)) (st : ClusterState)
    (r : String),
    (∀ e ∈ entries, (st.templates.lookup e.1).isSome = true ∧
      st.indices.contains e.2 = true) →
    ∃ stF acts, ReindexAllM st entries r = .ok (stF, acts)
      ∧ stF.indices = st.indices ∧ stF.templates = st.templates
      ∧ (∀ s d v rem, Action.reindexDocs s d v rem ∈ acts → v = "internal")
      ∧ ∀ e ∈ entries, (∃ ri nr, Action.putSettings e.2 ri nr ∈ acts)
          ∧ Action.aliasAdd e.2 e.1 ∈ acts
  | [], st, r, _ => ⟨st, [], rfl, rfl, rfl, by simp, by simp⟩
  | (a, n) :: rest, st, r, h => by
    obtain ⟨ht, hn⟩ := h (a, n) (List.mem_cons_self _ _)
    obtain ⟨t, htpl⟩ := Option.isSome_iff_exists.mp ht
    obtain ⟨st1, acts1, hrun, hind1, htpl1, _, hput1, hver1, hadd1⟩ :=
      reindexOneRun_ok st a n r false false false t rfl htpl hn
    have hrest : ∀ e ∈ rest, (st1.templates.lookup e.1).isSome = true ∧
        st1.indices.contains e.2 = true := by
      intro e he
      obtain ⟨h1, h2⟩ := h e (List.mem_cons_of_mem _ he)
      rw [htpl1, hind1]
      exact ⟨h1, h2⟩
    obtain ⟨stF, acts2, hall, hindF, htplF, hver2, hmem2⟩ :=
      reindexAllM_success rest st1 r hrest
    refine ⟨stF, acts1 ++ acts2, ?_, by rw [hindF, hind1], by rw [htplF, htpl1], ?_, ?_⟩
    · show ReindexAllM st ((a, n) :: rest) r = _
      unfold ReindexAllM
      rw [hrun]
      dsimp only
      rw [hall]
    · intro s d v rem hmem
      rcases List.mem_append.mp hmem with hm | hm
      · simpa using hver1 s d v rem hm
      · exact hver2 s d v rem hm
    · intro e he
      rcases List.mem_cons.mp he with he1 | he2
      · subst he1
        exact ⟨⟨t.refreshInterval, t.numberOfReplicas, List.mem_append.mpr (.inl hput1)⟩,
          List.mem_append.mpr (.inl (hadd1 rfl))⟩
      · obtain ⟨⟨ri, nr, hp⟩, ha2⟩ := hmem2 e he2
        exact ⟨⟨ri, nr, List.mem_append.mpr (.inr hp)⟩, List.mem_append.mpr (.inr ha2)⟩

/-- C8: `ReindexAll` runs the per-alias orchestration with version-external,
no-update-alias and bulk-indexing all fixed to false: the external-version
policy is never applied to a copy call, every entry's settings restore runs,
and every entry's alias is swapped to its new index; on the CLI side the
directory branch is invariant under the caller's `--version-external` and
`--no-update-alias` flags. -/
theorem reindexAll_flags_fixed_false :
    (∀ (st : ClusterState) (entries : List (String × String)) (remoteSrc : String),
      (∀ e ∈ entries, (st.templates.lookup e.1).isSome = true ∧
        st.indices.contains e.2 = true) →
      ∃ stF acts, ReindexAllM st entries remoteSrc = .ok (stF, acts)
        ∧ (∀ s d v rem, Action.reindexDocs s d v rem ∈ acts → v = "internal")
        ∧ ∀ e ∈ entries, (∃ ri nr, Action.putSettings e.2 ri nr ∈ acts)
            ∧ Action.aliasAdd e.2 e.1 ∈ acts)
    ∧ (∀ (st : ClusterState) (flags : ReindexFlags) (arg : String) (ft : Template)
        (df : List DirEntry) (now : String) (vE nUA vE' nUA' : Bool),
        strEndsWith arg ".json" = false →
        reindexCli st { flags with versionExternal := vE, noUpdateAlias := nUA } [arg] ft df
          now =
        reindexCli st { flags with versionExternal := vE', noUpdateAlias := nUA' } [arg] ft df
          now) := by
  constructor
  · intro st entries r h
    obtain ⟨stF, acts, h1, _, _, h4, h5⟩ := reindexAllM_success entries st r h
    exact ⟨stF, acts, h1, h4, h5⟩
  · intro st flags arg ft df now vE nUA vE' nUA' harg
    simp [reindexCli, reindexCliDir, harg]

/-- Witness for C8: one entry whose template and destination index exist. -/
theorem reindexAll_flags_fixed_false_witness :
    ∃ stF acts,
      ReindexAllM ⟨["tw-1"], [], [("tw", ⟨none, none⟩)], []⟩ [("tw", "tw-1")] "" =
        .ok (stF, acts)
      ∧ (∀ s d v rem, Action.reindexDocs s d v rem ∈ acts → v = "internal")
      ∧ ∀ e ∈ [(("tw" : String), ("tw-1" : String))],
          (∃ ri nr, Action.putSettings e.2 ri nr ∈ acts) ∧ Action.aliasAdd e.2 e.1 ∈ acts :=
  reindexAll_flags_fixed_false.1 ⟨["tw-1"], [], [("tw", ⟨none, none⟩)], []⟩
    [("tw", "tw-1")] "" (by decide)

end Elasdx
